import Mathlib

/-!
Verification of the CFA Fire Forecast integration core.

This file gives a shallow embedding, in Lean 4, of the core of the
`cfa_fire_forecast` Home Assistant integration:

* the constant tables of `const.py` (districts, feed names, rating
  vocabulary, severity table);
* the text extractor `_parse_item` of `coordinator.py` together with its
  helper regexes (`RE_RATING`, the Total-Fire-Ban phrase patterns,
  `RE_TFB_DISTRICT_LIST`, `RE_ISSUED_AT`, `_build_district_tfb_pattern`,
  `_strip_html`);
* the feed parser `_parse_rss_xml` (over an abstract already-parsed XML
  tree);
* the two fetch strategies `_fetch_combined_feed` and
  `_fetch_individual_feeds`, modelled from the point where the network
  I/O has completed (the HTTP outcome and per-region outcomes are inputs
  of the model);
* the fallback controller `CfaFireForecastCoordinator._async_update_data`
  as a step function on an explicit controller state.

The Python regexes used by the coordinator are simple enough (literal
alternations, `\s+` / `\s*` gaps, one bounded lookbehind, one lazy capture
terminated by a literal) that their search behaviour is deterministic;
each is translated into an executable scanner over `List Char`.  The
scanners use an explicit fuel argument (always instantiated with
`length + 1`, which is sufficient since every step consumes at least one
character) purely to make termination structural.
-/

namespace CfaFire

/-! ## Character classes

Python `re` with `re.IGNORECASE` on `str` uses Unicode classes; the feed
text handled by the integration is ASCII apart from non-breaking spaces
produced by entity decoding, so the model uses the ASCII classes plus
U+00A0 (which Python's `\s` and `str.strip` also treat as whitespace). -/

/-- Whitespace as matched by Python's `\s` on the feed text (ASCII
whitespace plus the non-breaking space produced by `&nbsp;`). -/
def isSpaceChar (c : Char) : Bool :=
  c == ' ' || c == '\t' || c == '\n' || c == '\r' ||
  c == '\x0b' || c == '\x0c' || c == ' '

/-- Word characters as matched by Python's `\w` (ASCII subset). -/
def isWordChar (c : Char) : Bool :=
  ('a' ≤ c && c ≤ 'z') || ('A' ≤ c && c ≤ 'Z') ||
  ('0' ≤ c && c ≤ '9') || c == '_'

/-- Case-insensitive character comparison (ASCII case folding, matching
Python's `re.IGNORECASE` on the ASCII district/rating names). -/
def charEqCI (a b : Char) : Bool :=
  a.toUpper == b.toUpper

/-- Match the literal pattern `pat` case-insensitively at the head of
`cs`; on success return the remaining characters.  This is the semantics
of a literal regex fragment under `re.IGNORECASE`. -/
def stripCI : List Char → List Char → Option (List Char)
  | [], cs => some cs
  | _ :: _, [] => none
  | p :: ps, c :: cs => if charEqCI p c then stripCI ps cs else none

/-- Uppercase a string (ASCII, mirroring `str.upper()` on the ASCII feed
names compared by `_parse_item`). -/
def upperStr (s : String) : String :=
  ⟨s.data.map Char.toUpper⟩

/-- Strip leading and trailing whitespace, mirroring `str.strip()`. -/
def stripEnds (cs : List Char) : List Char :=
  ((cs.dropWhile isSpaceChar).reverse.dropWhile isSpaceChar).reverse

/-- String version of `stripEnds`. -/
def stripStr (s : String) : String :=
  ⟨stripEnds s.data⟩

/-! ## Constants from `const.py` -/

/-- Association-list lookup with a default, mirroring Python
`dict.get(key, default)` on the constant tables of `const.py`. -/
def assocGetD (m : List (String × String)) (k dflt : String) : String :=
  match m.find? (fun p => p.1 == k) with
  | some p => p.2
  | none => dflt

/-- Table `DISTRICTS` from `const.py`: slug to display name. -/
def DISTRICTS : List (String × String) :=
  [("north-central", "North Central"),
   ("south-west", "South West"),
   ("northern-country", "Northern Country"),
   ("north-east", "North East"),
   ("central", "Central"),
   ("mallee", "Mallee"),
   ("wimmera", "Wimmera"),
   ("east-gippsland", "East Gippsland"),
   ("west-and-south-gippsland", "West & South Gippsland")]

/-- Table `DISTRICT_FEED_NAMES` from `const.py`: slug to canonical feed name. -/
def DISTRICT_FEED_NAMES : List (String × String) :=
  [("north-central", "North Central"),
   ("south-west", "South West"),
   ("northern-country", "Northern Country"),
   ("north-east", "North East"),
   ("central", "Central"),
   ("mallee", "Mallee"),
   ("wimmera", "Wimmera"),
   ("east-gippsland", "East Gippsland"),
   ("west-and-south-gippsland", "West and South Gippsland")]

/-- The values of `DISTRICT_FEED_NAMES` in dict order, i.e. the
alternation order of `RE_RATING`'s first capture group. -/
def districtFeedNameValues : List String :=
  DISTRICT_FEED_NAMES.map (fun p => p.2)

/-- Vocabulary `FIRE_DANGER_RATINGS` from `const.py`: the closed rating vocabulary
in ascending severity order.  This is also the alternation order of
`RE_RATING`'s second capture group. -/
def FIRE_DANGER_RATINGS : List String :=
  ["NO RATING", "LOW-MODERATE", "MODERATE", "HIGH", "EXTREME", "CATASTROPHIC"]

/-- Table `RATING_SEVERITY` from `const.py`. -/
def RATING_SEVERITY : List (String × Nat) :=
  [("NO RATING", 0),
   ("LOW-MODERATE", 1),
   ("MODERATE", 2),
   ("HIGH", 3),
   ("EXTREME", 4),
   ("CATASTROPHIC", 5)]

/-- Lookup `RATING_SEVERITY.get(r, dflt)` as used by `_parse_item`. -/
def ratingSeverityGet (r : String) (dflt : Nat) : Nat :=
  match RATING_SEVERITY.find? (fun p => p.1 == r) with
  | some p => p.2
  | none => dflt

/-- Constant `_COMBINED_FAIL_THRESHOLD` from `coordinator.py`. -/
def COMBINED_FAIL_THRESHOLD : Nat := 3

/-- Constant `_COMBINED_RETRY_INTERVAL` from `coordinator.py`. -/
def COMBINED_RETRY_INTERVAL : Nat := 10

/-! ## `_strip_html`

`_strip_html` applies `html.unescape`, then replaces every `<[^>]+>`
match by a space, then collapses `\s+` runs into single spaces and
strips the ends. -/

/-- Decode one HTML entity reference at the head of the list, returning
the decoded character and the rest.  This models the subset of Python's
`html.unescape` relevant to the CFA feed text: the common named
references (with semicolon) and the decimal reference for an
apostrophe; other `&` occurrences are left untouched, as `html.unescape`
leaves unknown references untouched. -/
def decodeEntity (cs : List Char) : Option (Char × List Char) :=
  match stripCI ("amp;").data cs with
  | some r => some ('&', r)
  | none =>
  match stripCI ("lt;").data cs with
  | some r => some ('<', r)
  | none =>
  match stripCI ("gt;").data cs with
  | some r => some ('>', r)
  | none =>
  match stripCI ("quot;").data cs with
  | some r => some ('"', r)
  | none =>
  match stripCI ("apos;").data cs with
  | some r => some ('\x27', r)
  | none =>
  match stripCI ("#39;").data cs with
  | some r => some ('\x27', r)
  | none =>
  match stripCI ("nbsp;").data cs with
  | some r => some (' ', r)
  | none => none

/-- Entity-decoding pass of `_strip_html` (`html.unescape`).  Fuel is
instantiated with `length + 1`; every step consumes at least one input
character. -/
def unescapeFrom : Nat → List Char → List Char
  | 0, _ => []
  | _ + 1, [] => []
  | fuel + 1, c :: cs =>
    if c == '&' then
      match decodeEntity cs with
      | some (d, rest) => d :: unescapeFrom fuel rest
      | none => c :: unescapeFrom fuel cs
    else c :: unescapeFrom fuel cs

/-- Find the first `>` in the list and return what follows it, or `none`
if there is no `>`.  Used to delimit a `<[^>]+>` tag match. -/
def afterFirstGt : List Char → Option (List Char)
  | [] => none
  | c :: cs => if c == '>' then some cs else afterFirstGt cs

/-- Tag-removal pass of `_strip_html` (`re.sub(r"<[^>]+>", " ", text)`).
At a `<` the regex matches up to the first following `>` provided at
least one character lies between (the `[^>]+` class excludes only `>`,
so the tag body may itself contain `<`); the whole match is replaced by
one space.  A `<` with no eligible `>` is kept verbatim. -/
def stripTagsFrom : Nat → List Char → List Char
  | 0, _ => []
  | _ + 1, [] => []
  | fuel + 1, c :: cs =>
    if c == '<' then
      match cs with
      | '>' :: _ => c :: stripTagsFrom fuel cs
      | _ =>
        match afterFirstGt cs with
        | some rest => ' ' :: stripTagsFrom fuel rest
        | none => c :: stripTagsFrom fuel cs
    else c :: stripTagsFrom fuel cs

/-- Whitespace collapsing pass of `_strip_html`
(`re.sub(r"\s+", " ", text)`): each maximal whitespace run becomes one
space. -/
def collapseWsFrom : Nat → List Char → List Char
  | 0, _ => []
  | _ + 1, [] => []
  | fuel + 1, c :: cs =>
    if isSpaceChar c then ' ' :: collapseWsFrom fuel (cs.dropWhile isSpaceChar)
    else c :: collapseWsFrom fuel cs

/-- Function `_strip_html` from `coordinator.py`: decode entities, remove tags,
collapse whitespace, strip the ends. -/
def stripHtml (s : String) : String :=
  let a := unescapeFrom (s.data.length + 1) s.data
  let b := stripTagsFrom (a.length + 1) a
  let c := collapseWsFrom (b.length + 1) b
  ⟨stripEnds c⟩

/-! ## `RE_RATING` and the rating extraction of `_parse_item`

`RE_RATING` is
`(?:^|\b)(<district alternation>):\s*(NO RATING|LOW-MODERATE|MODERATE|HIGH|EXTREME|CATASTROPHIC)`
with `re.IGNORECASE`.  All alternatives are literals and no district
name is a prefix of another, so at a given position at most one district
alternative can match and the engine's behaviour is deterministic:
try each start position left to right, at a position try the district
alternatives in pattern order, then require `:`, a maximal whitespace
run (`\s*` is greedy and every rating starts with a non-space), and a
rating alternative in pattern order.  `(?:^|\b)` lets a match start at
position 0 or after a non-word character (every district name starts
with a word character). -/

/-- Match one rating alternative of `RE_RATING`'s second group at the
head of `cs`, in pattern (= `FIRE_DANGER_RATINGS`) order; return the
canonical uppercase rating (the code applies `.upper()` to the matched
text) and the rest. -/
def matchRatingHere : List String → List Char → Option (String × List Char)
  | [], _ => none
  | r :: rs, cs =>
    match stripCI r.data cs with
    | some rest => some (r, rest)
    | none => matchRatingHere rs cs

/-- Match `<district>:\s*<rating>` at the head of `cs` for one district
name; return the rating and the rest after the rating. -/
def matchDistrictHere (d : String) (cs : List Char) : Option (String × List Char) :=
  match stripCI d.data cs with
  | none => none
  | some rest =>
    match rest with
    | ':' :: rest2 => matchRatingHere FIRE_DANGER_RATINGS (rest2.dropWhile isSpaceChar)
    | _ => none

/-- Try the district alternatives of `RE_RATING` in pattern order at the
head of `cs`; return the canonical district name (case-insensitively
equal to the matched text, so `.upper()` of both coincide), the rating,
and the rest. -/
def tryDistrictsHere : List String → List Char → Option (String × String × List Char)
  | [], _ => none
  | d :: ds, cs =>
    match matchDistrictHere d cs with
    | some (r, rest) => some (d, r, rest)
    | none => tryDistrictsHere ds cs

/-- Scanner for `RE_RATING.finditer`: scan left to right, emitting non-overlapping
matches.  `prevW` records whether the character before the current
position is a word character (`false` at the start of the text); the
`(?:^|\b)` prefix admits a match exactly when `prevW` is `false`, since
every district name starts with a word character.  After a match the
scan resumes at the match end; every rating ends in a letter, so `prevW`
is then `true`. -/
def scanMatches : Nat → Bool → List Char → List (String × String)
  | 0, _, _ => []
  | fuel + 1, prevW, cs =>
    match if prevW then none else tryDistrictsHere districtFeedNameValues cs with
    | some (d, r, rest) => (d, r) :: scanMatches fuel true rest
    | none =>
      match cs with
      | [] => []
      | c :: cs2 => scanMatches fuel (isWordChar c) cs2

/-- All `RE_RATING` matches of a cleaned text, as
(canonical district name, uppercase rating) pairs in match order. -/
def findRatingMatches (t : String) : List (String × String) :=
  scanMatches (t.data.length + 1) false t.data

/-- The district-matching loop of `_parse_item` (lines 120-124): walk
the matches in order and return the rating of the first match whose
district name equals the target case-insensitively; the loop variable
keeps its initial value `"UNKNOWN"` if none does. -/
def ratingLoop : List (String × String) → String → String
  | [], _ => "UNKNOWN"
  | (dn, r) :: rest, target =>
    if upperStr dn == upperStr target then r else ratingLoop rest target

/-- Rating extraction of `_parse_item` (lines 118-129): district-aware
loop, then fallback to the first match anywhere (`RE_RATING.search`,
i.e. the head of the `finditer` list) when the loop left the rating at
`"UNKNOWN"`. -/
def extractRating (t : String) (target : String) : String :=
  let ms := findRatingMatches t
  let r := ratingLoop ms target
  if r == "UNKNOWN" then
    match ms with
    | [] => "UNKNOWN"
    | (_, r0) :: _ => r0
  else r

/-! ## Total-Fire-Ban phrase patterns

The TFB patterns are word sequences separated by `\s+`.  `\s+` is greedy
and every following word starts with a non-space character, so matching
is deterministic: take the maximal whitespace run between words. -/

/-- Match a sequence of literal words separated by `\s+` at the head of
`cs`, case-insensitively; return the rest after the last word. -/
def stripWordsCI : List String → List Char → Option (List Char)
  | [], cs => some cs
  | [w], cs => stripCI w.data cs
  | w :: ws, cs =>
    match stripCI w.data cs with
    | none => none
    | some rest =>
      match rest with
      | c :: _ =>
        if isSpaceChar c then stripWordsCI ws (rest.dropWhile isSpaceChar)
        else none
      | [] => none

/-- Search, as in `re.search`, for a word-sequence pattern: true when the pattern
matches at some position of the text. -/
def searchWordsFrom : Nat → List String → List Char → Bool
  | 0, _, _ => false
  | fuel + 1, ws, cs =>
    if (stripWordsCI ws cs).isSome then true
    else
      match cs with
      | [] => false
      | _ :: cs2 => searchWordsFrom fuel ws cs2

/-- Boolean `re.search` over a whole string for a word-sequence pattern. -/
def searchWords (ws : List String) (t : String) : Bool :=
  searchWordsFrom (t.data.length + 1) ws t.data

/-- Pattern `RE_TFB_NO.search`: `is\s+not\s+currently\s+a\s+day\s+of\s+Total\s+Fire\s+Ban`. -/
def searchTfbNo (t : String) : Bool :=
  searchWords ["is", "not", "currently", "a", "day", "of", "Total", "Fire", "Ban"] t

/-- Pattern `RE_TFB_STATEWIDE.search`:
`whole\s+State\s+of\s+Victoria|statewide`. -/
def searchTfbStatewide (t : String) : Bool :=
  searchWords ["whole", "State", "of", "Victoria"] t || searchWords ["statewide"] t

/-- Pattern `RE_TFB_DECLARED.search`:
`(?:has\s+been\s+)?declared\s+a\s+day\s+of\s+Total\s+Fire\s+Ban`.  The
optional `has been` prefix does not affect whether a match exists, only
its span, and the code only tests the boolean, so the mandatory part
suffices. -/
def searchTfbDeclared (t : String) : Bool :=
  searchWords ["declared", "a", "day", "of", "Total", "Fire", "Ban"] t

/-- Pattern `RE_TFB_IS.search`:
`is\s+(?:currently\s+)?a\s+day\s+of\s+Total\s+Fire\s+Ban` — a match
exists iff the text contains the phrase with or without `currently`. -/
def searchTfbIs (t : String) : Bool :=
  searchWords ["is", "a", "day", "of", "Total", "Fire", "Ban"] t ||
  searchWords ["is", "currently", "a", "day", "of", "Total", "Fire", "Ban"] t

/-! ## `RE_TFB_DISTRICT_LIST`

`Total\s+Fire\s+Ban\s+(?:in\s+the\s+|for\s+the\s+)(.*?)(?:district\(?s?\)?|$)`
with `re.IGNORECASE | re.DOTALL`.  After the literal prefix, the lazy
group captures the shortest stretch up to the first position where the
literal `district` matches (the optional parenthesis forms only extend
what is consumed after the capture), or to the end of the text when no
`district` follows (the `$` alternative, which always succeeds at the
end).  `re.search` returns the leftmost position where the whole pattern
matches. -/

/-- Capture characters until the first case-insensitive occurrence of
`district`, or to the end. -/
def captureUntilDistrict : List Char → List Char
  | [] => []
  | c :: cs =>
    if (stripCI ("district").data (c :: cs)).isSome then []
    else c :: captureUntilDistrict cs

/-- Match the whole `RE_TFB_DISTRICT_LIST` pattern at the head of `cs`,
returning group 1 on success.  The `(?:in\s+the\s+|for\s+the\s+)`
alternation tries `in` first. -/
def tfbListHere (cs : List Char) : Option (List Char) :=
  match stripWordsCI ["Total", "Fire", "Ban"] cs with
  | none => none
  | some r1 =>
    match r1 with
    | c :: _ =>
      if isSpaceChar c then
        let r2 := r1.dropWhile isSpaceChar
        let afterIntro :=
          match stripWordsCI ["in", "the"] r2 with
          | some r3 => some r3
          | none => stripWordsCI ["for", "the"] r2
        match afterIntro with
        | none => none
        | some r3 =>
          match r3 with
          | c2 :: _ =>
            if isSpaceChar c2 then
              some (captureUntilDistrict (r3.dropWhile isSpaceChar))
            else none
          | [] => none
      else none
    | [] => none

/-- Search of `RE_TFB_DISTRICT_LIST`: leftmost full match, group 1. -/
def tfbDistrictListFrom : Nat → List Char → Option (List Char)
  | 0, _ => none
  | fuel + 1, cs =>
    match tfbListHere cs with
    | some g => some g
    | none =>
      match cs with
      | [] => none
      | _ :: cs2 => tfbDistrictListFrom fuel cs2

/-- The district-list substring of a TFB declaration, when it can be
located (`RE_TFB_DISTRICT_LIST.search(text)` group 1). -/
def tfbDistrictList (t : String) : Option String :=
  (tfbDistrictListFrom (t.data.length + 1) t.data).map (fun g => ⟨g⟩)

/-! ## `_build_district_tfb_pattern`

For `"Central"` the pattern is `(?<!North )Central` (case-insensitive):
an occurrence of `Central` not immediately preceded by `North `.  For
every other district it is `(?<!\w)<escaped name>`: an occurrence not
immediately preceded by a word character. -/

/-- Search for a case-insensitive occurrence of `Central` whose six
preceding characters are not `North ` (case-insensitive).  `revPrev`
holds the already-scanned characters in reverse. -/
def searchCentralFrom : Nat → List Char → List Char → Bool
  | 0, _, _ => false
  | fuel + 1, revPrev, cs =>
    if (stripCI ("Central").data cs).isSome &&
       !(stripCI (" htroN").data revPrev).isSome then true
    else
      match cs with
      | [] => false
      | c :: cs2 => searchCentralFrom fuel (c :: revPrev) cs2

/-- Search for a case-insensitive occurrence of `name` not preceded by a
word character. -/
def searchNonWordFrom : Nat → List Char → List Char → List Char → Bool
  | 0, _, _, _ => false
  | fuel + 1, name, revPrev, cs =>
    if (stripCI name cs).isSome &&
       (match revPrev with
        | [] => true
        | p :: _ => !isWordChar p) then true
    else
      match cs with
      | [] => false
      | c :: cs2 => searchNonWordFrom fuel name (c :: revPrev) cs2

/-- Predicate `_build_district_tfb_pattern(district_name).search(list_text)` as a
boolean: the district name occurs in the list text under the
boundary-aware match rule of `coordinator.py` lines 82-97. -/
def tfbDistrictSearch (districtName : String) (listText : String) : Bool :=
  if districtName == "Central" then
    searchCentralFrom (listText.data.length + 1) [] listText.data
  else
    searchNonWordFrom (listText.data.length + 1) districtName.data [] listText.data

/-! ## `RE_ISSUED_AT`

`Bureau\s+of\s+Meteorology\s+forecast\s+issued\s+at:\s*(.+)` without
DOTALL; on the whitespace-collapsed text there are no newlines, so `.+`
runs to the end of the text.  `\s*` is greedy; if everything after the
colon is whitespace the engine backtracks one space so that `.+` can
consume at least one character. -/

/-- Match `RE_ISSUED_AT` at the head of `cs`, returning group 1. -/
def issuedHere (cs : List Char) : Option (List Char) :=
  match stripWordsCI ["Bureau", "of", "Meteorology", "forecast", "issued"] cs with
  | none => none
  | some r1 =>
    match r1 with
    | c :: _ =>
      if isSpaceChar c then
        match stripCI ("at:").data (r1.dropWhile isSpaceChar) with
        | none => none
        | some r2 =>
          let q := r2.dropWhile isSpaceChar
          if q.isEmpty then
            if r2.isEmpty then none else some [' ']
          else some q
      else none
    | [] => none

/-- Search of `RE_ISSUED_AT`: leftmost full match, group 1. -/
def issuedFrom : Nat → List Char → Option (List Char)
  | 0, _ => none
  | fuel + 1, cs =>
    match issuedHere cs with
    | some g => some g
    | none =>
      match cs with
      | [] => none
      | _ :: cs2 => issuedFrom fuel cs2

/-- Issue-timestamp extraction of `_parse_item` (lines 155-158):
`RE_ISSUED_AT.search(text)`, then `.strip()` of group 1. -/
def extractIssuedAt (t : String) : Option String :=
  (issuedFrom (t.data.length + 1) t.data).map (fun g => ⟨stripEnds g⟩)

/-! ## `_parse_item` -/

/-- Ban-flag extraction of `_parse_item` (lines 136-152), on the cleaned
text. -/
def extractTfb (t : String) (districtName : String) : Bool :=
  if searchTfbNo t then false
  else if searchTfbStatewide t then true
  else if searchTfbDeclared t || searchTfbIs t then
    match tfbDistrictList t with
    | some lst => tfbDistrictSearch districtName lst
    | none => true
  else false

/-- The record returned by `_parse_item` (minus `date_label`, which the
callers attach). -/
structure ParsedItem where
  rating : String
  total_fire_ban : Bool
  issued_at : Option String
  severity : Nat
  description_raw : String
deriving Repr, DecidableEq

/-- Function `_parse_item` from `coordinator.py`: strip the HTML, extract the
district-specific rating, the district-aware ban flag and the issue
time, and attach the severity from `RATING_SEVERITY.get(rating, 0)`. -/
def parse_item (descriptionHtml : String) (districtName : String) : ParsedItem :=
  let t := stripHtml descriptionHtml
  let r := extractRating t districtName
  { rating := r
    total_fire_ban := extractTfb t districtName
    issued_at := extractIssuedAt t
    severity := ratingSeverityGet r 0
    description_raw := t }

/-! ## `_parse_rss_xml`

The parser is modelled from the point where `ElementTree.fromstring`
has succeeded: the input is the already-parsed channel structure
(`root.find("channel")` as an `Option`; element text as an
`Option String` inside each found element, since `Element.text` may be
`None`).  `ElementTree.ParseError` on malformed bytes is a failure
before this point and is not modelled. -/

/-- One `<item>` of the channel: the `find` results for `title` and
`description` (element present?), each with its optional text. -/
structure RssItem where
  title : Option (Option String)
  description : Option (Option String)
deriving Repr, DecidableEq

/-- The `<channel>` element: `pubDate` find result and the `item` list
in document order. -/
structure RssChannel where
  pubDate : Option (Option String)
  items : List RssItem
deriving Repr, DecidableEq

/-- The weekday/Today/Tomorrow alternation of the forecast-item filter
in `_parse_rss_xml` (lines 199-204). -/
def forecastLabelWords : List String :=
  ["Monday", "Tuesday", "Wednesday", "Thursday", "Friday", "Saturday",
   "Sunday", "Today", "Tomorrow"]

/-- Match, as in `re.match`, of the forecast-label pattern: the (stripped) title
begins, case-insensitively, with one of the alternation words. -/
def isForecastLabel (t : String) : Bool :=
  forecastLabelWords.any (fun w => (stripCI w.data t.data).isSome)

/-- The item loop of `_parse_rss_xml` (lines 190-205): keep entries
whose `title` and `description` elements are both present and whose
stripped title text matches the forecast-label pattern, in document
order, as (stripped title, raw description) pairs. -/
def collectForecastItems : List RssItem → List (String × String)
  | [] => []
  | it :: rest =>
    match it.title, it.description with
    | some tt, some dd =>
      let titleText := stripStr (tt.getD "")
      let descText := dd.getD ""
      if isForecastLabel titleText then
        (titleText, descText) :: collectForecastItems rest
      else collectForecastItems rest
    | _, _ => collectForecastItems rest

/-- Function `_parse_rss_xml` from `coordinator.py`, over the abstract parsed
tree: fail when there is no channel; extract the channel `pubDate`
(kept only when the element is present and its text truthy, then
stripped) and the filtered forecast items. -/
def parse_rss_xml (root : Option RssChannel) :
    Except String (Option String × List (String × String)) :=
  match root with
  | none => .error "Invalid RSS structure - no channel element"
  | some ch =>
    let pubDate : Option String :=
      match ch.pubDate with
      | some (some s) => if s == "" then none else some (stripStr s)
      | _ => none
    .ok (pubDate, collectForecastItems ch.items)

/-! ## Fetch strategies

Both strategies are modelled from the point where the network round
trips have completed: the combined strategy takes the parsed feed
content (an HTTP or XML failure raises before the code modelled here and
is just another `UpdateFailed`), the individual strategy takes the
per-region outcomes of the concurrently gathered tasks. -/

/-- One forecast day: a parsed item plus the `date_label` the strategies
attach from the entry title. -/
structure ForecastDay where
  date_label : String
  item : ParsedItem
deriving Repr, DecidableEq

/-- A per-region snapshot as built by both strategies. -/
structure RegionSnapshot where
  district_slug : String
  district_name : String
  pub_date : Option String
  forecasts : List ForecastDay
deriving Repr, DecidableEq

/-- Lookup `DISTRICTS.get(slug, slug)` as used by the strategies. -/
def districtDisplayName (slug : String) : String :=
  assocGetD DISTRICTS slug slug

/-- Lookup `DISTRICT_FEED_NAMES.get(slug, DISTRICTS.get(slug, slug))` as used
by the strategies (lines 256 and 288). -/
def feedNameOf (slug : String) : String :=
  assocGetD DISTRICT_FEED_NAMES slug (districtDisplayName slug)

/-- The snapshot `_fetch_combined_feed` builds for one tracked slug:
one `ForecastDay` per forecast item, in item order (the item loop runs
over items outermost and appends to every slug's list, so each slug's
list is the item list in order). -/
def combinedSnapshot (slug : String) (pubDate : Option String)
    (items : List (String × String)) : RegionSnapshot :=
  { district_slug := slug
    district_name := districtDisplayName slug
    pub_date := pubDate
    forecasts := items.map (fun ti => ⟨ti.1, parse_item ti.2 (feedNameOf slug)⟩) }

/-- Function `_fetch_combined_feed` from `coordinator.py` (lines 242-275), after
a successful fetch and XML parse of the combined feed: fail when the
filtered item list is empty; build one snapshot per tracked slug; fail
when every tracked slug's every (nonempty) forecast list carries only
`UNKNOWN` ratings; otherwise return the result.  `district_slugs` is a
Python set; the model takes its iteration order as a list. -/
def fetch_combined_feed (slugs : List String) (pubDate : Option String)
    (items : List (String × String)) :
    Except String (List (String × RegionSnapshot)) :=
  if items.isEmpty then
    .error "Combined feed returned no forecast items"
  else
    let result := slugs.map (fun slug => (slug, combinedSnapshot slug pubDate items))
    let allUnknown := result.all (fun p =>
      p.2.forecasts.isEmpty ||
      p.2.forecasts.all (fun f => f.item.rating == "UNKNOWN"))
    if allUnknown && !slugs.isEmpty then
      .error "Combined feed returned data but all ratings are UNKNOWN - feed structure may have changed"
    else
      .ok result

/-- The successful entries of `_fetch_individual_feeds`: the per-slug
results, in task order, for the slugs whose fetch succeeded. -/
def individualSuccesses (slugs : List String)
    (outcome : String → Except String RegionSnapshot) :
    List (String × RegionSnapshot) :=
  slugs.filterMap (fun slug =>
    match outcome slug with
    | .ok snap => some (slug, snap)
    | .error _ => none)

/-- The failed slugs of `_fetch_individual_feeds`, in task order. -/
def individualFailures (slugs : List String)
    (outcome : String → Except String RegionSnapshot) : List String :=
  slugs.filter (fun slug =>
    match outcome slug with
    | .ok _ => false
    | .error _ => true)

/-- Comma join, mirroring `", ".join(errors)`. -/
def joinComma : List String → String
  | [] => ""
  | [s] => s
  | s :: rest => s ++ ", " ++ joinComma rest

/-- Function `_fetch_individual_feeds` from `coordinator.py` (lines 321-361),
after the gathered per-region tasks have completed with the given
outcomes: collect the successes and the failed slugs; raise naming every
failed slug when no region succeeded; otherwise return both. -/
def fetch_individual_feeds (slugs : List String)
    (outcome : String → Except String RegionSnapshot) :
    Except String (List (String × RegionSnapshot) × List String) :=
  let result := individualSuccesses slugs outcome
  let errors := individualFailures slugs outcome
  if result.isEmpty then
    .error ("All individual district feeds failed: " ++ joinComma errors)
  else
    .ok (result, errors)

/-! ## The fallback controller

`CfaFireForecastCoordinator._async_update_data` is modelled as a step
function on an explicit controller state.  The per-cycle environment
supplies the outcome each strategy would produce this cycle; the step
function never inspects a strategy outcome unless the code would have
run that strategy.  The individual-strategy error branch is modelled by
the `UpdateFailed` re-raise path (lines 531-534); the generic-exception
path (lines 535-540) differs only in wrapping the message, which no
claim inspects. -/

/-- The coordinator fields mutated by `_async_update_data`. -/
structure CState where
  failCount : Nat
  cycleCount : Nat
  fallbackActive : Bool
  lastSource : String
  lastError : Option String
  failedDistricts : List String
deriving Repr, DecidableEq

/-- The coordinator state right after `__init__`. -/
def initCState : CState :=
  { failCount := 0, cycleCount := 0, fallbackActive := false,
    lastSource := "none", lastError := none, failedDistricts := [] }

/-- The per-cycle environment: what each strategy would return if run
this cycle. -/
structure CycleEnv where
  combined : Except String (List (String × RegionSnapshot))
  individual : Except String (List (String × RegionSnapshot) × List String)

/-- Lines 462-477 of `coordinator.py`: decide whether to attempt the
combined feed, updating `fallback_active`.  The input state already has
the incremented cycle count. -/
def combinedDecision (s1 : CState) : Bool × CState :=
  if COMBINED_FAIL_THRESHOLD ≤ s1.failCount then
    (s1.cycleCount % COMBINED_RETRY_INTERVAL == 0, {s1 with fallbackActive := true})
  else
    (true, {s1 with fallbackActive := false})

/-- Lines 518-540 of `coordinator.py`: the individual-feed attempt. -/
def stepIndividual (slugs : List String) (env : CycleEnv) (s : CState) :
    CState × Except String (List (String × RegionSnapshot)) :=
  match env.individual with
  | .ok (r, failedSlugs) =>
    ({s with lastSource := "individual",
             failedDistricts := failedSlugs,
             lastError :=
               if failedSlugs.isEmpty then none
               else some ("Individual feeds failed for: " ++ joinComma failedSlugs)},
     .ok r)
  | .error e =>
    ({s with lastError := some e, failedDistricts := slugs}, .error e)

/-- Method `CfaFireForecastCoordinator._async_update_data` (lines 448-540) as a
step function: returns the post-cycle state and the cycle's result. -/
def update_data (slugs : List String) (env : CycleEnv) (s : CState) :
    CState × Except String (List (String × RegionSnapshot)) :=
  if slugs.isEmpty then (s, .ok [])
  else
    let s1 : CState := {s with cycleCount := s.cycleCount + 1}
    let dec := combinedDecision s1
    if dec.1 then
      match env.combined with
      | .ok r =>
        ({dec.2 with failCount := 0, fallbackActive := false,
                     lastSource := "combined", lastError := none,
                     failedDistricts := []},
         .ok r)
      | .error _ =>
        stepIndividual slugs env {dec.2 with failCount := dec.2.failCount + 1}
    else stepIndividual slugs env dec.2

/-- Whether the next cycle run from state `s` would attempt the combined
feed (the decision `update_data` makes after incrementing the cycle
count). -/
def attemptsNext (s : CState) : Bool :=
  (combinedDecision {s with cycleCount := s.cycleCount + 1}).1

/-! ## The end-to-end fallback scenario

One tracked region; the combined feed fails (times out) on every cycle
in which it is attempted, while the individual feed always succeeds
cleanly.  This is the scenario of the spec's end-to-end property. -/

/-- A minimal successful snapshot for the scenario's individual fetch. -/
def trivialSnapshot : RegionSnapshot :=
  { district_slug := "central", district_name := "Central",
    pub_date := none, forecasts := [] }

/-- Scenario environment: combined always fails, individual always
succeeds with no failed regions. -/
def envCombinedDown : CycleEnv :=
  { combined := .error "Combined feed timeout"
    individual := .ok ([("central", trivialSnapshot)], []) }

/-- The controller state after `n` cycles of the scenario, starting from
the freshly initialised coordinator. -/
def scenarioState : Nat → CState
  | 0 => initCState
  | n + 1 => (update_data ["central"] envCombinedDown (scenarioState n)).1

/-! ## Specification-side formulations

These definitions follow the wording of the specification; the theorems
below compare them with the embedded code. -/

/-- Rating selection as the spec words it: pick the occurrence whose
region name case-insensitively equals the target; if none, fall back to
the first occurrence; if there is no occurrence, `UNKNOWN`. -/
def ratingSpec (ms : List (String × String)) (target : String) : String :=
  match ms.find? (fun p => upperStr p.1 == upperStr target) with
  | some p => p.2
  | none =>
    match ms with
    | [] => "UNKNOWN"
    | (_, r0) :: _ => r0

/-- Entry selection of the feed parser as the spec words it: keep an
entry iff its label and description fields are both present and its
(stripped) label begins, case-insensitively, with a weekday name,
`Today` or `Tomorrow`. -/
def itemSel (it : RssItem) : Option (String × String) :=
  match it.title, it.description with
  | some tt, some dd =>
    let t := stripStr (tt.getD "")
    if isForecastLabel t then some (t, dd.getD "") else none
  | _, _ => none

/-- Every tracked region's every day extracts as `UNKNOWN` (the
condition of the combined strategy's semantic-validation failure). -/
def allUnknownProp (slugs : List String) (items : List (String × String)) : Prop :=
  ∀ slug ∈ slugs, ∀ ti ∈ items, (parse_item ti.2 (feedNameOf slug)).rating = "UNKNOWN"

/-! ## Helper lemmas: the rating vocabulary -/

lemma matchRatingHere_mem {rs : List String} {cs : List Char} {r : String}
    {rest : List Char} (h : matchRatingHere rs cs = some (r, rest)) : r ∈ rs := by
  induction rs with
  | nil => simp [matchRatingHere] at h
  | cons x xs ih =>
    simp only [matchRatingHere] at h
    cases hx : stripCI x.data cs with
    | some rr => rw [hx] at h; injection h with h; injection h with h1 h2; simp [h1]
    | none => rw [hx] at h; exact List.mem_cons_of_mem _ (ih h)

lemma matchDistrictHere_mem {d : String} {cs : List Char} {r : String}
    {rest : List Char} (h : matchDistrictHere d cs = some (r, rest)) :
    r ∈ FIRE_DANGER_RATINGS := by
  unfold matchDistrictHere at h
  split at h
  · exact absurd h (by simp)
  · split at h
    · exact matchRatingHere_mem h
    · exact absurd h (by simp)

lemma tryDistrictsHere_mem {ds : List String} {cs : List Char} {d r : String}
    {rest : List Char} (h : tryDistrictsHere ds cs = some (d, r, rest)) :
    r ∈ FIRE_DANGER_RATINGS := by
  induction ds with
  | nil => simp [tryDistrictsHere] at h
  | cons x xs ih =>
    simp only [tryDistrictsHere] at h
    cases hx : matchDistrictHere x cs with
    | some pr =>
      rw [hx] at h
      injection h with h
      cases pr with
      | mk pr1 pr2 =>
        injection h with h1 h2
        injection h2 with h2 h3
        subst h2
        exact matchDistrictHere_mem hx
    | none => rw [hx] at h; exact ih h

lemma scanMatches_succ (fuel : Nat) (prevW : Bool) (cs : List Char) :
    scanMatches (fuel + 1) prevW cs =
      match if prevW then none else tryDistrictsHere districtFeedNameValues cs with
      | some (d, r, rest) => (d, r) :: scanMatches fuel true rest
      | none =>
        match cs with
        | [] => []
        | c :: cs2 => scanMatches fuel (isWordChar c) cs2 := rfl

lemma scanMatches_mem {fuel : Nat} {prevW : Bool} {cs : List Char}
    {p : String × String} (h : p ∈ scanMatches fuel prevW cs) :
    p.2 ∈ FIRE_DANGER_RATINGS := by
  induction fuel generalizing prevW cs with
  | zero => simp [scanMatches] at h
  | succ fuel ih =>
    rw [scanMatches_succ] at h
    cases htry : (if prevW then none else tryDistrictsHere districtFeedNameValues cs) with
    | some drr =>
      rw [htry] at h
      obtain ⟨d, r, rest⟩ := drr
      rcases List.mem_cons.mp h with h1 | h2
      · subst h1
        have : tryDistrictsHere districtFeedNameValues cs = some (d, r, rest) := by
          cases prevW with
          | true => simp at htry
          | false => simpa using htry
        exact tryDistrictsHere_mem this
      · exact ih h2
    | none =>
      rw [htry] at h
      cases cs with
      | nil => simp at h
      | cons c cs2 => exact ih h

lemma findRatingMatches_mem {t : String} {p : String × String}
    (h : p ∈ findRatingMatches t) : p.2 ∈ FIRE_DANGER_RATINGS :=
  scanMatches_mem h

lemma vocab_ne_unknown {r : String} (h : r ∈ FIRE_DANGER_RATINGS) :
    r ≠ "UNKNOWN" := by
  fin_cases h <;> decide

/-! ## Helper lemmas: the rating loop equals the spec's selection -/

lemma ratingLoop_of_find_some {ms : List (String × String)} {target : String}
    {p : String × String}
    (h : ms.find? (fun q => upperStr q.1 == upperStr target) = some p) :
    ratingLoop ms target = p.2 := by
  induction ms with
  | nil => simp at h
  | cons x xs ih =>
    rw [List.find?_cons] at h
    by_cases hx : (upperStr x.1 == upperStr target) = true
    · rw [hx] at h
      injection h with h
      subst h
      simp [ratingLoop, hx]
    · rw [Bool.not_eq_true] at hx
      rw [hx] at h
      simp only [ratingLoop]
      rw [if_neg (by simp [hx])]
      exact ih h

lemma ratingLoop_of_find_none {ms : List (String × String)} {target : String}
    (h : ms.find? (fun q => upperStr q.1 == upperStr target) = none) :
    ratingLoop ms target = "UNKNOWN" := by
  induction ms with
  | nil => rfl
  | cons x xs ih =>
    rw [List.find?_cons] at h
    by_cases hx : (upperStr x.1 == upperStr target) = true
    · rw [hx] at h; exact absurd h (by simp)
    · rw [Bool.not_eq_true] at hx
      rw [hx] at h
      simp only [ratingLoop]
      rw [if_neg (by simp [hx])]
      exact ih h

/-- The rating extraction of `_parse_item` computes exactly the spec's
selection rule. -/
lemma extractRating_eq_spec (t target : String) :
    extractRating t target = ratingSpec (findRatingMatches t) target := by
  simp only [extractRating]
  unfold ratingSpec
  cases hf : (findRatingMatches t).find? (fun q => upperStr q.1 == upperStr target) with
  | some p =>
    have hp2 : p.2 ≠ "UNKNOWN" :=
      vocab_ne_unknown (findRatingMatches_mem (List.mem_of_find?_eq_some hf))
    rw [ratingLoop_of_find_some hf, if_neg (by simpa using hp2)]
  | none =>
    rw [ratingLoop_of_find_none hf, if_pos (by simp)]

/-- The rating field of every extracted record is `UNKNOWN` or one of
the six vocabulary values. -/
lemma extractRating_vocab (t target : String) :
    extractRating t target = "UNKNOWN" ∨
    extractRating t target ∈ FIRE_DANGER_RATINGS := by
  rw [extractRating_eq_spec]
  unfold ratingSpec
  cases hf : (findRatingMatches t).find? (fun q => upperStr q.1 == upperStr target) with
  | some p => exact Or.inr (findRatingMatches_mem (List.mem_of_find?_eq_some hf))
  | none =>
    cases hm : findRatingMatches t with
    | nil => exact Or.inl rfl
    | cons p rest =>
      exact Or.inr (findRatingMatches_mem (by rw [hm]; exact List.mem_cons_self p rest))

/-! ## Helper lemmas: ban-flag extraction -/

/-- On a fragment whose cleaned text reaches the declaration branch of
the ban-flag extraction, the flag is the boundary-aware district match
against the located list, or `true` when the list cannot be located. -/
lemma extractTfb_decl (t d : String)
    (h1 : searchTfbNo t = false) (h2 : searchTfbStatewide t = false)
    (h3 : searchTfbDeclared t = true ∨ searchTfbIs t = true) :
    (∀ lst, tfbDistrictList t = some lst →
      extractTfb t d = tfbDistrictSearch d lst) ∧
    (tfbDistrictList t = none → extractTfb t d = true) := by
  have h3b : (searchTfbDeclared t || searchTfbIs t) = true := by
    rcases h3 with h | h <;> simp [h]
  constructor
  · intro lst hl
    simp [extractTfb, h1, h2, h3b, hl]
  · intro hl
    simp [extractTfb, h1, h2, h3b, hl]

/-! ## Helper lemmas: feed-parser entry filtering -/

lemma collectForecastItems_eq_filterMap (l : List RssItem) :
    collectForecastItems l = l.filterMap itemSel := by
  induction l with
  | nil => rfl
  | cons it rest ih =>
    obtain ⟨tit, des⟩ := it
    cases tit with
    | none => simpa [collectForecastItems, itemSel, List.filterMap_cons] using ih
    | some tt =>
      cases des with
      | none => simpa [collectForecastItems, itemSel, List.filterMap_cons] using ih
      | some dd =>
        simp only [collectForecastItems, itemSel, List.filterMap_cons]
        by_cases hf : isForecastLabel (stripStr (tt.getD "")) = true
        · simp [hf, ih]
        · rw [Bool.not_eq_true] at hf
          simp [hf, ih]

/-! ## Helper lemmas: the fallback controller -/

lemma stepIndividual_failCount (slugs : List String) (env : CycleEnv) (s : CState) :
    (stepIndividual slugs env s).1.failCount = s.failCount := by
  unfold stepIndividual
  cases env.individual with
  | ok pr => rfl
  | error e => rfl

lemma stepIndividual_fallbackActive (slugs : List String) (env : CycleEnv) (s : CState) :
    (stepIndividual slugs env s).1.fallbackActive = s.fallbackActive := by
  unfold stepIndividual
  cases env.individual with
  | ok pr => rfl
  | error e => rfl

lemma combinedDecision_failCount (s : CState) :
    (combinedDecision s).2.failCount = s.failCount := by
  unfold combinedDecision
  split <;> rfl

lemma attemptsNext_of_lt {s : CState} (h : s.failCount < COMBINED_FAIL_THRESHOLD) :
    attemptsNext s = true := by
  unfold attemptsNext combinedDecision
  rw [if_neg (by simpa using Nat.not_le.mpr h)]

lemma attemptsNext_of_ge {s : CState} (h : COMBINED_FAIL_THRESHOLD ≤ s.failCount) :
    attemptsNext s = ((s.cycleCount + 1) % COMBINED_RETRY_INTERVAL == 0) := by
  unfold attemptsNext combinedDecision
  rw [if_pos (by simpa using h)]

lemma update_data_of_attempt_ok {slugs : List String} {env : CycleEnv} {s : CState}
    {r : List (String × RegionSnapshot)} (hne : slugs ≠ [])
    (hatt : attemptsNext s = true) (hok : env.combined = .ok r) :
    update_data slugs env s =
      ({(combinedDecision {s with cycleCount := s.cycleCount + 1}).2 with
          failCount := 0, fallbackActive := false, lastSource := "combined",
          lastError := none, failedDistricts := []},
       .ok r) := by
  unfold attemptsNext at hatt
  unfold update_data
  rw [if_neg (by simpa [List.isEmpty_iff] using hne)]
  simp only [hatt, if_true, hok]

lemma update_data_of_attempt_err {slugs : List String} {env : CycleEnv} {s : CState}
    {e : String} (hne : slugs ≠ [])
    (hatt : attemptsNext s = true) (herr : env.combined = .error e) :
    update_data slugs env s =
      stepIndividual slugs env
        {(combinedDecision {s with cycleCount := s.cycleCount + 1}).2 with
          failCount := (combinedDecision {s with cycleCount := s.cycleCount + 1}).2.failCount + 1} := by
  unfold attemptsNext at hatt
  unfold update_data
  rw [if_neg (by simpa [List.isEmpty_iff] using hne)]
  simp only [hatt, if_true, herr]

lemma update_data_of_skip {slugs : List String} {env : CycleEnv} {s : CState}
    (hne : slugs ≠ []) (hatt : attemptsNext s = false) :
    update_data slugs env s =
      stepIndividual slugs env
        (combinedDecision {s with cycleCount := s.cycleCount + 1}).2 := by
  unfold attemptsNext at hatt
  unfold update_data
  rw [if_neg (by simpa [List.isEmpty_iff] using hne)]
  simp [hatt]

lemma update_data_err_failCount {slugs : List String} {env : CycleEnv} {s : CState}
    {e : String} (hne : slugs ≠ [])
    (hatt : attemptsNext s = true) (herr : env.combined = .error e) :
    (update_data slugs env s).1.failCount = s.failCount + 1 := by
  rw [update_data_of_attempt_err hne hatt herr, stepIndividual_failCount]
  simp [combinedDecision_failCount]

lemma update_data_skip_state {slugs : List String} {env : CycleEnv} {s : CState}
    (hne : slugs ≠ []) (hge : COMBINED_FAIL_THRESHOLD ≤ s.failCount)
    (hatt : attemptsNext s = false) :
    (update_data slugs env s).1.fallbackActive = true ∧
    (update_data slugs env s).1.failCount = s.failCount := by
  rw [update_data_of_skip hne hatt, stepIndividual_fallbackActive,
    stepIndividual_failCount, combinedDecision_failCount]
  refine ⟨?_, rfl⟩
  unfold combinedDecision
  rw [if_pos (by simpa using hge)]

lemma update_data_ok_state {slugs : List String} {env : CycleEnv} {s : CState}
    {r : List (String × RegionSnapshot)} (hne : slugs ≠ [])
    (hatt : attemptsNext s = true) (hok : env.combined = .ok r) :
    (update_data slugs env s).1.failCount = 0 ∧
    (update_data slugs env s).1.fallbackActive = false ∧
    (update_data slugs env s).1.lastError = none ∧
    (update_data slugs env s).1.failedDistricts = [] ∧
    (update_data slugs env s).2 = .ok r := by
  rw [update_data_of_attempt_ok hne hatt hok]
  exact ⟨rfl, rfl, rfl, rfl, rfl⟩

lemma update_data_indiv_ok {slugs : List String} {env : CycleEnv} {s : CState}
    {r : List (String × RegionSnapshot)} {failedSlugs : List String}
    (hne : slugs ≠ [])
    (hreach : attemptsNext s = false ∨ ∃ e, env.combined = .error e)
    (hok : env.individual = .ok (r, failedSlugs)) :
    (update_data slugs env s).1.failedDistricts = failedSlugs ∧
    (update_data slugs env s).1.lastError =
      (if failedSlugs.isEmpty then none
       else some ("Individual feeds failed for: " ++ joinComma failedSlugs)) ∧
    (update_data slugs env s).2 = .ok r := by
  have key : ∀ x : CState,
      (stepIndividual slugs env x).1.failedDistricts = failedSlugs ∧
      (stepIndividual slugs env x).1.lastError =
        (if failedSlugs.isEmpty then none
         else some ("Individual feeds failed for: " ++ joinComma failedSlugs)) ∧
      (stepIndividual slugs env x).2 = .ok r := by
    intro x
    unfold stepIndividual
    rw [hok]
    exact ⟨rfl, rfl, rfl⟩
  rcases hreach with hatt | ⟨e, herr⟩
  · rw [update_data_of_skip hne hatt]
    exact key _
  · cases hatt : attemptsNext s with
    | false =>
      rw [update_data_of_skip hne hatt]
      exact key _
    | true =>
      rw [update_data_of_attempt_err hne hatt herr]
      exact key _

lemma update_data_indiv_err {slugs : List String} {env : CycleEnv} {s : CState}
    {e : String} (hne : slugs ≠ [])
    (hreach : attemptsNext s = false ∨ ∃ e0, env.combined = .error e0)
    (herr : env.individual = .error e) :
    (update_data slugs env s).1.lastError = some e ∧
    (update_data slugs env s).1.failedDistricts = slugs ∧
    (update_data slugs env s).2 = .error e := by
  have key : ∀ x : CState,
      (stepIndividual slugs env x).1.lastError = some e ∧
      (stepIndividual slugs env x).1.failedDistricts = slugs ∧
      (stepIndividual slugs env x).2 = .error e := by
    intro x
    unfold stepIndividual
    rw [herr]
    exact ⟨rfl, rfl, rfl⟩
  rcases hreach with hatt | ⟨e0, herr0⟩
  · rw [update_data_of_skip hne hatt]
    exact key _
  · cases hatt : attemptsNext s with
    | false =>
      rw [update_data_of_skip hne hatt]
      exact key _
    | true =>
      rw [update_data_of_attempt_err hne hatt herr0]
      exact key _

/-! ## Helper lemmas: the combined fetch strategy -/

/-- The boolean all-UNKNOWN sanity check of `_fetch_combined_feed`
agrees with the propositional statement, for a non-empty item list (the
empty case has already raised). -/
lemma combined_allUnknown_iff (slugs : List String) (pd : Option String)
    (items : List (String × String)) (hitems : items ≠ []) :
    ((slugs.map (fun slug => (slug, combinedSnapshot slug pd items))).all (fun p =>
        p.2.forecasts.isEmpty ||
        p.2.forecasts.all (fun f => f.item.rating == "UNKNOWN")) = true) ↔
      allUnknownProp slugs items := by
  rw [List.all_eq_true]
  constructor
  · intro h slug hs ti hti
    have hp := h _ (List.mem_map.mpr ⟨slug, hs, rfl⟩)
    simp only [combinedSnapshot, Bool.or_eq_true, List.all_eq_true] at hp
    rcases hp with hemp | hall
    · exfalso
      rw [List.isEmpty_iff, List.map_eq_nil_iff] at hemp
      exact hitems hemp
    · have := hall _ (List.mem_map.mpr ⟨ti, hti, rfl⟩)
      simpa using this
  · intro h p hp
    obtain ⟨slug, hs, rfl⟩ := List.mem_map.mp hp
    simp only [combinedSnapshot, Bool.or_eq_true, List.all_eq_true]
    right
    intro f hf
    obtain ⟨ti, hti, rfl⟩ := List.mem_map.mp hf
    simpa using h slug hs ti hti

lemma fetch_combined_of_allUnknown {slugs : List String} {pd : Option String}
    {items : List (String × String)} (hslugs : slugs ≠ []) (hitems : items ≠ [])
    (h : allUnknownProp slugs items) :
    fetch_combined_feed slugs pd items =
      .error "Combined feed returned data but all ratings are UNKNOWN - feed structure may have changed" := by
  unfold fetch_combined_feed
  rw [if_neg (by simpa [List.isEmpty_iff] using hitems)]
  rw [if_pos]
  rw [Bool.and_eq_true]
  exact ⟨(combined_allUnknown_iff slugs pd items hitems).mpr h,
    by simpa [List.isEmpty_iff] using hslugs⟩

lemma fetch_combined_of_not_allUnknown {slugs : List String} {pd : Option String}
    {items : List (String × String)} (h : ¬ allUnknownProp slugs items) :
    fetch_combined_feed slugs pd items =
      .ok (slugs.map (fun slug => (slug, combinedSnapshot slug pd items))) := by
  have hitems : items ≠ [] := by
    rintro rfl
    exact h (fun slug _ ti hti => absurd hti (List.not_mem_nil ti))
  unfold fetch_combined_feed
  rw [if_neg (by simpa [List.isEmpty_iff] using hitems)]
  rw [if_neg]
  rw [Bool.and_eq_true]
  rintro ⟨hall, -⟩
  exact h ((combined_allUnknown_iff slugs pd items hitems).mp hall)

/-! ## Helper lemmas: the individual fetch strategy -/

lemma individual_entry_none_iff (outcome : String → Except String RegionSnapshot)
    (s : String) :
    (match outcome s with
      | .ok snap => some (s, snap)
      | .error _ => (none : Option (String × RegionSnapshot))) = none ↔
      ∃ e, outcome s = .error e := by
  cases h : outcome s <;> simp

lemma individualSuccesses_eq_nil_iff (slugs : List String)
    (outcome : String → Except String RegionSnapshot) :
    individualSuccesses slugs outcome = [] ↔
      ∀ s ∈ slugs, ∃ e, outcome s = .error e := by
  unfold individualSuccesses
  rw [List.filterMap_eq_nil_iff]
  constructor
  · intro h s hs
    exact (individual_entry_none_iff outcome s).mp (h s hs)
  · intro h s hs
    exact (individual_entry_none_iff outcome s).mpr (h s hs)

lemma mem_individualSuccesses (slugs : List String)
    (outcome : String → Except String RegionSnapshot) (s : String)
    (snap : RegionSnapshot) :
    (s, snap) ∈ individualSuccesses slugs outcome ↔
      s ∈ slugs ∧ outcome s = .ok snap := by
  unfold individualSuccesses
  rw [List.mem_filterMap]
  constructor
  · rintro ⟨slug, hslug, hf⟩
    cases h : outcome slug with
    | ok sn =>
      rw [h] at hf
      simp only [Option.some.injEq, Prod.mk.injEq] at hf
      obtain ⟨rfl, rfl⟩ := hf
      exact ⟨hslug, h⟩
    | error e =>
      rw [h] at hf
      exact absurd hf (by simp)
  · rintro ⟨hs, hok⟩
    exact ⟨s, hs, by rw [hok]⟩

lemma mem_individualFailures (slugs : List String)
    (outcome : String → Except String RegionSnapshot) (s : String) :
    s ∈ individualFailures slugs outcome ↔
      s ∈ slugs ∧ ∃ e, outcome s = .error e := by
  unfold individualFailures
  rw [List.mem_filter]
  constructor
  · rintro ⟨hs, hb⟩
    refine ⟨hs, ?_⟩
    cases h : outcome s with
    | ok sn => rw [h] at hb; simp at hb
    | error e => exact ⟨e, rfl⟩
  · rintro ⟨hs, e, he⟩
    exact ⟨hs, by rw [he]⟩

lemma fetch_individual_of_some_ok {slugs : List String}
    {outcome : String → Except String RegionSnapshot}
    (h : ∃ s ∈ slugs, ∃ snap, outcome s = .ok snap) :
    fetch_individual_feeds slugs outcome =
      .ok (individualSuccesses slugs outcome, individualFailures slugs outcome) := by
  obtain ⟨s, hs, snap, hok⟩ := h
  unfold fetch_individual_feeds
  rw [if_neg]
  rw [List.isEmpty_iff]
  intro hnil
  obtain ⟨e, he⟩ := (individualSuccesses_eq_nil_iff slugs outcome).mp hnil s hs
  rw [hok] at he
  exact absurd he (by simp)

lemma fetch_individual_of_all_err {slugs : List String}
    {outcome : String → Except String RegionSnapshot}
    (h : ∀ s ∈ slugs, ∃ e, outcome s = .error e) :
    fetch_individual_feeds slugs outcome =
      .error ("All individual district feeds failed: " ++
        joinComma (individualFailures slugs outcome)) := by
  unfold fetch_individual_feeds
  rw [if_pos]
  rw [List.isEmpty_iff]
  exact (individualSuccesses_eq_nil_iff slugs outcome).mpr h

/-! ## Claim statement bundles -/

/-- The behaviour the combined strategy must exhibit (claim C4), as a
bundle: empty entry list fails, all-UNKNOWN extraction fails, otherwise
one snapshot per tracked slug with one record per entry in entry
order. -/
def C4Concl (slugs : List String) (pd : Option String)
    (items : List (String × String)) : Prop :=
  (items = [] →
    fetch_combined_feed slugs pd items =
      .error "Combined feed returned no forecast items") ∧
  (items ≠ [] → allUnknownProp slugs items →
    fetch_combined_feed slugs pd items =
      .error "Combined feed returned data but all ratings are UNKNOWN - feed structure may have changed") ∧
  (¬ allUnknownProp slugs items →
    fetch_combined_feed slugs pd items =
      .ok (slugs.map (fun slug => (slug, combinedSnapshot slug pd items))))

/-- The behaviour the individual strategy must exhibit (claim C5), as a
bundle: some success yields exactly the successful snapshots plus the
failed ids; it raises exactly when every region failed. -/
def C5Concl (slugs : List String)
    (outcome : String → Except String RegionSnapshot) : Prop :=
  ((∃ s ∈ slugs, ∃ snap, outcome s = .ok snap) →
    fetch_individual_feeds slugs outcome =
      .ok (individualSuccesses slugs outcome, individualFailures slugs outcome)) ∧
  ((∀ s ∈ slugs, ∃ e, outcome s = .error e) →
    fetch_individual_feeds slugs outcome =
      .error ("All individual district feeds failed: " ++
        joinComma (individualFailures slugs outcome))) ∧
  (∀ s snap, (s, snap) ∈ individualSuccesses slugs outcome ↔
    s ∈ slugs ∧ outcome s = .ok snap) ∧
  (∀ s, s ∈ individualFailures slugs outcome ↔
    s ∈ slugs ∧ ∃ e, outcome s = .error e) ∧
  ((∃ msg, fetch_individual_feeds slugs outcome = .error msg) ↔
    ∀ s ∈ slugs, ∃ e, outcome s = .error e)

/-! ## Example fragments used by the claims -/

/-- The ambiguous-rating fragment of the spec's property list. -/
def exRatingFragment : String := "North Central: HIGH Central: LOW-MODERATE"

/-- The ban-declaration fragment of the spec's property list. -/
def exTfbFragment : String :=
  "Today has been declared a day of Total Fire Ban in the North Central and Mallee district(s)."

/-- The environment of the C8 counterexample: the combined attempt fails
while the individual strategy succeeds cleanly. -/
def envCombinedFailIndivClean : CycleEnv :=
  { combined := .error "Combined feed returned HTTP 500"
    individual := .ok ([("central", trivialSnapshot)], []) }

/-! ## Claim theorems -/

/-- C3: for every cleaned fragment and target region, the extractor
picks the `<Region>: <RATING>` occurrence whose region name equals the
target case-insensitively, falls back to the first occurrence when none
matches the target, and yields `UNKNOWN` when there is no occurrence
(`ratingSpec` is that selection rule stated the spec's way); in
particular the ambiguous fragment extracts Central as LOW-MODERATE and
North Central as HIGH, never cross-matched, and a target absent from the
fragment falls back to the first occurrence. -/
theorem C3_rating_extraction :
    (∀ t target : String,
      extractRating t target = ratingSpec (findRatingMatches t) target) ∧
    extractRating exRatingFragment "Central" = "LOW-MODERATE" ∧
    extractRating exRatingFragment "North Central" = "HIGH" ∧
    extractRating exRatingFragment "Mallee" = "HIGH" ∧
    extractRating "no rating line here" "Central" = "UNKNOWN" :=
  ⟨extractRating_eq_spec, rfl, rfl, rfl, rfl⟩

/-- C9: every record the extractor produces carries a rating that is
`UNKNOWN` or one of the six vocabulary values, and a severity that is
exactly the severity table's entry for that rating (with default 0);
rating and severity can never disagree. -/
theorem C9_extractor_record_consistency :
    ∀ html district : String,
      ((parse_item html district).rating = "UNKNOWN" ∨
        (parse_item html district).rating ∈ FIRE_DANGER_RATINGS) ∧
      (parse_item html district).severity =
        ratingSeverityGet (parse_item html district).rating 0 := by
  intro html district
  constructor
  · exact extractRating_vocab (stripHtml html) district
  · rfl

/-- C2: on every fragment that reaches the declaration branch (no
negative phrasing, no statewide phrasing, declaration phrasing present),
the ban flag equals the boundary-aware district match against the
located district-list substring, and defaults to true when the list
cannot be located; on the example fragment listing North Central and
Mallee, the flag is true for North Central and Mallee and false for
Central. -/
theorem C2_tfb_district_containment :
    (∀ t d : String, searchTfbNo t = false → searchTfbStatewide t = false →
      (searchTfbDeclared t = true ∨ searchTfbIs t = true) →
      (∀ lst, tfbDistrictList t = some lst →
        extractTfb t d = tfbDistrictSearch d lst) ∧
      (tfbDistrictList t = none → extractTfb t d = true)) ∧
    (parse_item exTfbFragment "North Central").total_fire_ban = true ∧
    (parse_item exTfbFragment "Mallee").total_fire_ban = true ∧
    (parse_item exTfbFragment "Central").total_fire_ban = false :=
  ⟨extractTfb_decl, rfl, rfl, rfl⟩

/-- Witness for C2: the hypotheses of the general statement hold on the
example fragment, whose district list is located as
`North Central and Mallee `, and the theorem instantiates to the
boundary-aware containment test for Central there. -/
theorem C2_tfb_district_containment_witness :
    searchTfbNo exTfbFragment = false ∧
    searchTfbStatewide exTfbFragment = false ∧
    searchTfbDeclared exTfbFragment = true ∧
    tfbDistrictList exTfbFragment = some "North Central and Mallee " ∧
    extractTfb exTfbFragment "Central" =
      tfbDistrictSearch "Central" "North Central and Mallee " :=
  ⟨rfl, rfl, rfl, rfl,
    (C2_tfb_district_containment.1 exTfbFragment "Central" rfl rfl (Or.inl rfl)).1
      "North Central and Mallee " rfl⟩

/-- C6 counterexample: the UNKNOWN sentinel's severity is NOT distinct
from NO RATING's mapping — `RATING_SEVERITY.get("UNKNOWN", 0)` and
`RATING_SEVERITY["NO RATING"]` are both 0. -/
theorem C6_severity_counterexample :
    ratingSeverityGet "UNKNOWN" 0 = ratingSeverityGet "NO RATING" 0 := rfl

/-- C6 (amended): over the six-member vocabulary in ascending order the
severity is strictly increasing; the UNKNOWN sentinel has severity 0,
which equals NO RATING's severity — UNKNOWN is distinct from NO RATING
only as a rating value (it is absent from the severity table and from
the vocabulary), not in severity. -/
theorem C6_severity_mapping :
    List.Pairwise (· < ·)
      (FIRE_DANGER_RATINGS.map (fun r => ratingSeverityGet r 0)) ∧
    ratingSeverityGet "UNKNOWN" 0 = 0 ∧
    ratingSeverityGet "NO RATING" 0 = 0 ∧
    RATING_SEVERITY.find? (fun p => p.1 == "UNKNOWN") = none ∧
    ("UNKNOWN" : String) ∉ FIRE_DANGER_RATINGS := by
  refine ⟨by decide, rfl, rfl, rfl, by decide⟩

/-- C7: for every well-formed feed document with a channel, the parser
returns exactly the entries with both label and description present
whose stripped label begins case-insensitively with a weekday name,
Today or Tomorrow (`itemSel` is that selection stated the spec's way),
in document order (`filterMap` preserves order), together with the
channel publication date. -/
theorem C7_feed_entry_filtering :
    ∀ ch : RssChannel,
      parse_rss_xml (some ch) =
        .ok ((match ch.pubDate with
              | some (some s) => if s == "" then none else some (stripStr s)
              | _ => none),
             ch.items.filterMap itemSel) := by
  intro ch
  simp only [parse_rss_xml]
  rw [collectForecastItems_eq_filterMap]

/-- C4: the combined strategy fails on an empty entry list, fails when
every tracked region's every day extracts as UNKNOWN, and otherwise
returns one snapshot per tracked region with one record per entry in
entry order. -/
theorem C4_combined_validation :
    ∀ (slugs : List String) (pd : Option String)
      (items : List (String × String)),
      slugs ≠ [] → C4Concl slugs pd items := by
  intro slugs pd items hs
  refine ⟨?_, ?_, ?_⟩
  · rintro rfl
    rfl
  · intro hi hall
    exact fetch_combined_of_allUnknown hs hi hall
  · intro hnall
    exact fetch_combined_of_not_allUnknown hnall

/-- Witness for C4: one tracked region and one entry with no rating
pattern; the theorem applies, and the strategy indeed fails on this
all-UNKNOWN input rather than returning data. -/
theorem C4_combined_validation_witness :
    (["central"] : List String) ≠ [] ∧
    C4Concl ["central"] none [("Today", "no ratings in this text")] ∧
    fetch_combined_feed ["central"] none [("Today", "no ratings in this text")] =
      .error "Combined feed returned data but all ratings are UNKNOWN - feed structure may have changed" :=
  ⟨by decide, C4_combined_validation ["central"] none [("Today", "no ratings in this text")] (by decide), rfl⟩

/-- C5: with a non-empty tracked set, the individual strategy returns
exactly the successful regions' snapshots together with the failed
region ids whenever some region succeeds, and raises (naming every
failed region) exactly when all regions failed. -/
theorem C5_individual_partial :
    ∀ (slugs : List String) (outcome : String → Except String RegionSnapshot),
      slugs ≠ [] → C5Concl slugs outcome := by
  intro slugs outcome hne
  refine ⟨fun h => fetch_individual_of_some_ok h,
    fun h => fetch_individual_of_all_err h,
    fun s snap => mem_individualSuccesses slugs outcome s snap,
    fun s => mem_individualFailures slugs outcome s, ?_⟩
  constructor
  · rintro ⟨msg, hmsg⟩
    by_contra hno
    push_neg at hno
    obtain ⟨s, hs, hok⟩ := hno
    have : ∃ snap, outcome s = .ok snap := by
      cases h : outcome s with
      | ok snap => exact ⟨snap, rfl⟩
      | error e => exact absurd h (hok e)
    rw [fetch_individual_of_some_ok ⟨s, hs, this⟩] at hmsg
    exact absurd hmsg (by simp)
  · intro h
    exact ⟨_, fetch_individual_of_all_err h⟩

/-- The per-region outcomes of the C5 witness scenario: of three
regions, exactly `mallee` fails. -/
def c5WitnessOutcome : String → Except String RegionSnapshot := fun s =>
  if s == "mallee" then .error "HTTP 500"
  else .ok { district_slug := s, district_name := s,
             pub_date := none, forecasts := [] }

/-- Witness for C5: three regions of which one fails; the theorem
applies, the successes are exactly the two surviving regions and the
failed list is exactly `mallee`. -/
theorem C5_individual_partial_witness :
    (["central", "mallee", "wimmera"] : List String) ≠ [] ∧
    C5Concl ["central", "mallee", "wimmera"] c5WitnessOutcome ∧
    (individualSuccesses ["central", "mallee", "wimmera"] c5WitnessOutcome).length = 2 ∧
    individualFailures ["central", "mallee", "wimmera"] c5WitnessOutcome = ["mallee"] :=
  ⟨by decide,
   C5_individual_partial ["central", "mallee", "wimmera"] c5WitnessOutcome (by decide),
   rfl, rfl⟩

/-- C1 (amended): in the NORMAL state (fewer than 3 consecutive combined
failures) the combined feed is always attempted; once the threshold is
reached, it is attempted exactly on cycles whose absolute cycle count is
divisible by 10 (not relative to the cycle at which fallback was
entered), and skipped cycles keep the failure count and stay in
sustained fallback; a successful combined attempt resets the count to 0
and clears fallback_active; a failed attempt increments the count.  In
the scenario where the combined feed fails on cycles 1-3, the count
reaches 3 at cycle 3, fallback becomes active at cycle 4, and the first
combined retry happens at cycle 10 — not cycle 13. -/
theorem C1_fallback_state_machine :
    (∀ s : CState, s.failCount < COMBINED_FAIL_THRESHOLD → attemptsNext s = true) ∧
    (∀ s : CState, COMBINED_FAIL_THRESHOLD ≤ s.failCount →
      attemptsNext s = ((s.cycleCount + 1) % COMBINED_RETRY_INTERVAL == 0)) ∧
    (∀ (slugs : List String) (env : CycleEnv) (s : CState), slugs ≠ [] →
      COMBINED_FAIL_THRESHOLD ≤ s.failCount → attemptsNext s = false →
      (update_data slugs env s).1.fallbackActive = true ∧
      (update_data slugs env s).1.failCount = s.failCount) ∧
    (∀ (slugs : List String) (env : CycleEnv) (s : CState)
      (r : List (String × RegionSnapshot)), slugs ≠ [] →
      attemptsNext s = true → env.combined = .ok r →
      (update_data slugs env s).1.failCount = 0 ∧
      (update_data slugs env s).1.fallbackActive = false ∧
      (update_data slugs env s).2 = .ok r) ∧
    (∀ (slugs : List String) (env : CycleEnv) (s : CState) (e : String),
      slugs ≠ [] → attemptsNext s = true → env.combined = .error e →
      (update_data slugs env s).1.failCount = s.failCount + 1) ∧
    ((scenarioState 3).failCount = COMBINED_FAIL_THRESHOLD ∧
     (scenarioState 3).fallbackActive = false ∧
     attemptsNext (scenarioState 3) = false ∧
     (scenarioState 4).fallbackActive = true ∧
     attemptsNext (scenarioState 9) = true) := by
  refine ⟨fun s h => attemptsNext_of_lt h, fun s h => attemptsNext_of_ge h,
    ?_, ?_, ?_, rfl, rfl, rfl, rfl, rfl⟩
  · intro slugs env s hne hge hatt
    exact update_data_skip_state hne hge hatt
  · intro slugs env s r hne hatt hok
    obtain ⟨a, b, _, _, c⟩ := update_data_ok_state hne hatt hok
    exact ⟨a, b, c⟩
  · intro slugs env s e hne hatt herr
    exact update_data_err_failCount hne hatt herr

/-- Counterexample to C1 as stated: in the very scenario the claim
describes (combined failures on cycles 1-3, fallback entered at cycle
4), the code attempts the combined feed at cycle 10 — the 7th cycle
since entering fallback, which the claim says must be skipped — and
skips cycle 13, which the claim says is the first retry. -/
theorem C1_fallback_counterexample :
    (scenarioState 3).failCount = COMBINED_FAIL_THRESHOLD ∧
    (scenarioState 4).fallbackActive = true ∧
    attemptsNext (scenarioState 9) = true ∧
    attemptsNext (scenarioState 12) = false :=
  ⟨rfl, rfl, rfl, rfl⟩

/-- Witness for C1: the freshly initialised controller is below the
threshold and attempts the combined feed on its first cycle. -/
theorem C1_fallback_state_machine_witness :
    initCState.failCount < COMBINED_FAIL_THRESHOLD ∧
    attemptsNext initCState = true :=
  ⟨by decide, C1_fallback_state_machine.1 initCState (by decide)⟩

/-- C8 (amended): every failure path leaves a trace in the controller
state — a failed combined attempt increments the consecutive-failure
counter (its only guaranteed trace: `last_error` is cleared again when
the subsequent individual fetch fully succeeds); an individual fetch
with partial failures records the failed regions and an error summary;
a totally failed individual fetch records the error and marks every
tracked region failed. -/
theorem C8_failure_observability :
    ∀ (slugs : List String) (env : CycleEnv) (s : CState), slugs ≠ [] →
      (∀ e : String, attemptsNext s = true → env.combined = .error e →
        (update_data slugs env s).1.failCount = s.failCount + 1) ∧
      (∀ (r : List (String × RegionSnapshot)) (failedSlugs : List String),
        (attemptsNext s = false ∨ ∃ e, env.combined = .error e) →
        env.individual = .ok (r, failedSlugs) → failedSlugs ≠ [] →
        (update_data slugs env s).1.failedDistricts = failedSlugs ∧
        (update_data slugs env s).1.lastError =
          some ("Individual feeds failed for: " ++ joinComma failedSlugs)) ∧
      (∀ e : String, (attemptsNext s = false ∨ ∃ e0, env.combined = .error e0) →
        env.individual = .error e →
        (update_data slugs env s).1.lastError = some e ∧
        (update_data slugs env s).1.failedDistricts = slugs) := by
  intro slugs env s hne
  refine ⟨?_, ?_, ?_⟩
  · intro e hatt herr
    exact update_data_err_failCount hne hatt herr
  · intro r failedSlugs hreach hok hfail
    obtain ⟨h1, h2, -⟩ := update_data_indiv_ok hne hreach hok
    refine ⟨h1, ?_⟩
    rw [h2, if_neg (by simpa [List.isEmpty_iff] using hfail)]
  · intro e hreach herr
    obtain ⟨h1, h2, -⟩ := update_data_indiv_err hne hreach herr
    exact ⟨h1, h2⟩

/-- Counterexample to C8 as stated: a cycle whose combined attempt
failed but whose individual fetch fully succeeded ends with `last_error`
absent and `failed_districts` empty — the only trace of the failure is
the incremented consecutive-failure counter. -/
theorem C8_failure_observability_counterexample :
    attemptsNext initCState = true ∧
    envCombinedFailIndivClean.combined = .error "Combined feed returned HTTP 500" ∧
    (update_data ["central"] envCombinedFailIndivClean initCState).1.lastError = none ∧
    (update_data ["central"] envCombinedFailIndivClean initCState).1.failedDistricts = [] ∧
    (update_data ["central"] envCombinedFailIndivClean initCState).1.failCount = 1 :=
  ⟨rfl, rfl, rfl, rfl, rfl⟩

/-- Witness for C8: in the counterexample cycle the combined failure is
traced by the incremented counter, via the theorem. -/
theorem C8_failure_observability_witness :
    (update_data ["central"] envCombinedFailIndivClean initCState).1.failCount =
      initCState.failCount + 1 :=
  (C8_failure_observability ["central"] envCombinedFailIndivClean initCState
    (by decide)).1 "Combined feed returned HTTP 500" rfl rfl

/-- C10: invoked with an empty tracked set, the individual strategy
raises the all-regions-failed failure with an empty failed list even
though no region was attempted; the controller avoids this by returning
an empty result, with untouched state and without consulting either
strategy, whenever no region is tracked. -/
theorem C10_empty_region_set :
    (∀ outcome : String → Except String RegionSnapshot,
      fetch_individual_feeds [] outcome =
        .error ("All individual district feeds failed: " ++ joinComma [])) ∧
    (∀ (env : CycleEnv) (s : CState), update_data [] env s = (s, .ok [])) :=
  ⟨fun _ => rfl, fun _ _ => rfl⟩

end CfaFire
